import Mathlib

/-!
Verification of the mcp-remote-non-pkce broker/proxy against its
natural-language specification.  The TypeScript sources under `src/lib/`
are shallowly embedded: pure computations become Lean functions, and the
network / filesystem effects are passed in explicitly as oracle values
(`Except`, `Option`, outcome inductives).  JavaScript truthiness of the
relevant values (empty strings, the number 0, `undefined`) is modelled
explicitly.
-/

/-! ### Tool filter (`src/lib/utils.ts`, `patternToRegex` / `shouldIncludeTool`)

`patternToRegex` splits the glob pattern on `*`, regex-escapes every
segment (so each segment matches literally), joins the segments with
`.*` and compiles `^...$` with the case-insensitive flag.  We embed the
resulting regex's semantics directly as a matcher over `List Char`:
literal segments compare case-insensitively, and each `.*` gap matches
any run of characters other than the four JavaScript line terminators
(which `.` does not match). -/

/-- A character that JavaScript regex `.` can match: anything except the
four line terminators. -/
def jsDotChar (c : Char) : Bool :=
  decide (c ≠ '\n' ∧ c ≠ '\r' ∧ c.toNat ≠ 0x2028 ∧ c.toNat ≠ 0x2029)

/-- Case-insensitive equality of character lists (the `i` regex flag). -/
def lowerEq (a b : List Char) : Bool :=
  decide (a.map Char.toLower = b.map Char.toLower)

/-- `"pattern".split('*')` from `patternToRegex`. -/
def splitOnStar : List Char → List (List Char)
  | [] => [[]]
  | c :: cs =>
    if c = '*' then [] :: splitOnStar cs
    else
      match splitOnStar cs with
      | [] => [[c]]
      | p :: ps => (c :: p) :: ps

/-- Semantics of the regex `^seg₀.*seg₁.*…segₙ$` built by `patternToRegex`:
the name decomposes into the literal segments (case-insensitively)
separated by arbitrary `.`-matchable gaps. -/
def matchSegs : List (List Char) → List Char → Bool
  | [], s => s.isEmpty
  | [seg], s => lowerEq seg s
  | seg :: seg2 :: rest, s =>
    decide (seg.length ≤ s.length) && lowerEq seg (s.take seg.length) &&
      ((List.range (s.length - seg.length + 1)).any fun k =>
        ((s.drop seg.length).take k).all jsDotChar &&
          matchSegs (seg2 :: rest) ((s.drop seg.length).drop k))

/-- Declarative reading of the same regex: an explicit decomposition of
the name into matched segments and gap runs. -/
def MatchSpec : List (List Char) → List Char → Prop
  | [], s => s = []
  | [seg], s => lowerEq seg s = true
  | seg :: seg2 :: rest, s =>
    ∃ p g t, s = p ++ g ++ t ∧ lowerEq seg p = true ∧ g.all jsDotChar = true ∧
      MatchSpec (seg2 :: rest) t

/-- `patternToRegex(pattern).test(name)` from the source. -/
def patternMatches (pattern name : String) : Bool :=
  matchSegs (splitOnStar pattern.data) name.data

/-- `shouldIncludeTool` from `src/lib/utils.ts`: include a tool iff the
pattern list is empty or no pattern matches (the source's early-return
loop is the same as the negated `any`). -/
def shouldIncludeTool (ignorePatterns : List String) (toolName : String) : Bool :=
  if ignorePatterns.isEmpty then true
  else !(ignorePatterns.any fun p => patternMatches p toolName)

/-! ### Message transformer and proxy router
(`src/lib/utils.ts`, `createMessageTransformer` / `mcpProxy`)

JSON-RPC ids are numbers or strings; JavaScript truthiness (`!messageId`)
treats `0`, `""` and a missing id alike.  A message is modelled by the
fields the proxy actually reads: `id`, `method`, `params.name` (for
`tools/call`), `params.clientInfo.name` (for `initialize`; presence of
the `clientInfo` object is presence of the field here) and
`result.tools` (for `tools/list` responses, reduced to the tool names,
which is all the filter consults). -/

/-- A JSON-RPC id value. -/
inductive JVal
  | num (n : Int)
  | str (s : String)
deriving DecidableEq

/-- JavaScript truthiness of an id value. -/
def JVal.truthy : JVal → Bool
  | .num n => decide (n ≠ 0)
  | .str s => decide (s ≠ "")

/-- Truthiness of a possibly-absent id (`!messageId`). -/
def idTruthy : Option JVal → Bool
  | none => false
  | some v => v.truthy

/-- Truthiness of a possibly-absent string field. -/
def strTruthy : Option String → Bool
  | none => false
  | some s => decide (s ≠ "")

/-- The fields of a JSON-RPC message that the proxy reads or rewrites. -/
structure Message where
  id : Option JVal := none
  method : Option String := none
  paramsName : Option String := none
  clientInfoName : Option String := none
  resultTools : Option (List String) := none
deriving DecidableEq

/-- The in-memory pending-request table (`Map<string, Message>`),
modelled as an insertion-ordered association list, matching the JS `Map`
iteration/update discipline. -/
abbrev Pending := List (JVal × Message)

/-- `Map.set`: replace in place if the key exists, else append. -/
def pendingSet (st : Pending) (k : JVal) (v : Message) : Pending :=
  if st.any fun e => decide (e.1 = k) then
    st.map fun e => if e.1 = k then (k, v) else e
  else st ++ [(k, v)]

/-- `Map.get`. -/
def pendingGet (st : Pending) (k : JVal) : Option Message :=
  (st.find? fun e => decide (e.1 = k)).map (·.2)

/-- `Map.delete`. -/
def pendingDelete (st : Pending) (k : JVal) : Pending :=
  st.filter fun e => decide (e.1 ≠ k)

/-- Result of `transformRequestFunction`: the `MESSAGE_BLOCKED` symbol or
a message to forward. -/
inductive ReqTransformResult
  | blocked
  | message (m : Message)
deriving DecidableEq

/-- `interceptRequest` from `createMessageTransformer`: a falsy id skips
both the table insertion and the transform; otherwise the message is
recorded (before the transform runs) and the transform's result is
returned. -/
def interceptRequest (transform : Message → ReqTransformResult)
    (st : Pending) (m : Message) : Pending × ReqTransformResult :=
  match m.id with
  | none => (st, .message m)
  | some v =>
    if v.truthy then (pendingSet st v m, transform m)
    else (st, .message m)

/-- `interceptResponse`: a falsy id skips the lookup, the deletion and
the transform.  The transform receives the original request, which is
`undefined` when the id is not in the table; `Except.error` models the
`TypeError` the JS transform would then throw. -/
def interceptResponse (transform : Option Message → Message → Except Unit Message)
    (st : Pending) (m : Message) : Pending × Except Unit Message :=
  match m.id with
  | none => (st, .ok m)
  | some v =>
    if v.truthy then (pendingDelete st v, transform (pendingGet st v) m)
    else (st, .ok m)

/-- `version` from `package.json`. -/
def MCP_REMOTE_VERSION : String := "0.1.0"

/-- `mcpProxy`'s `transformRequestFunction`: block a `tools/call` whose
(truthy) tool name is excluded by the filter. -/
def transformRequestFunction (ignoredTools : List String) (m : Message) :
    ReqTransformResult :=
  if m.method = some "tools/call" ∧ strTruthy m.paramsName = true then
    if shouldIncludeTool ignoredTools (m.paramsName.getD "") then .message m
    else .blocked
  else .message m

/-- `mcpProxy`'s `transformResponseFunction`: filter the tools of a
`tools/list` response.  Reading `.method` of an `undefined` request, or
`.result.tools` of a response without them, throws in JS
(`Except.error`). -/
def transformResponseFunction (ignoredTools : List String)
    (req : Option Message) (res : Message) : Except Unit Message :=
  match req with
  | none => .error ()
  | some r =>
    if r.method = some "tools/list" then
      match res.resultTools with
      | none => .error ()
      | some ts =>
        .ok { res with resultTools := some (ts.filter fun t => shouldIncludeTool ignoredTools t) }
    else .ok res

/-- The JSON-RPC error response built for a blocked `tools/call`. -/
structure ErrorResponse where
  jsonrpc : String
  id : Option JVal
  code : Int
  message : String
deriving DecidableEq

/-- What `mcpProxy`'s client-side `onmessage` does with one message. -/
inductive ClientEffect
  | forward (m : Message)
  | errorToClient (e : ErrorResponse)
deriving DecidableEq

/-- Client → server direction of `mcpProxy`: intercept (which may block
and answer the client with a JSON-RPC error), apply the `initialize`
client-info rewrite, and forward. -/
def onClientMessage (ignoredTools : List String) (st : Pending) (m : Message) :
    Pending × ClientEffect :=
  match interceptRequest (transformRequestFunction ignoredTools) st m with
  | (st2, .blocked) =>
    (st2, .errorToClient
      { jsonrpc := "2.0", id := m.id, code := -32603,
        message := "Tool \"" ++ m.paramsName.getD "" ++ "\" is not available" })
  | (st2, .message m2) =>
    let m3 :=
      if m2.method = some "initialize" ∧ m2.clientInfoName.isSome then
        { m2 with clientInfoName :=
            m2.clientInfoName.map fun n =>
              n ++ " (via mcp-remote " ++ MCP_REMOTE_VERSION ++ ")" }
      else m2
    (st2, .forward m3)

/-- Server → client direction of `mcpProxy`. -/
def onServerMessage (ignoredTools : List String) (st : Pending) (m : Message) :
    Pending × Except Unit Message :=
  interceptResponse (transformResponseFunction ignoredTools) st m

/-- Whether `transformRequestFunction` lets the message through to the
server. -/
def isForwarded (ignoredTools : List String) (m : Message) : Bool :=
  match transformRequestFunction ignoredTools m with
  | .blocked => false
  | .message _ => true

/-- Fold a list of client requests through the proxy, keeping the table. -/
def runRequests (ignoredTools : List String) : Pending → List Message → Pending
  | st, [] => st
  | st, m :: ms => runRequests ignoredTools (onClientMessage ignoredTools st m).1 ms

/-- Fold a list of server responses through the proxy, keeping the table. -/
def runResponses (ignoredTools : List String) : Pending → List Message → Pending
  | st, [] => st
  | st, m :: ms => runResponses ignoredTools (onServerMessage ignoredTools st m).1 ms

/-- A well-formed server response to a request: same id, with a tools
array so the `tools/list` filter cannot throw. -/
def mkResponse (m : Message) : Message :=
  { id := m.id, resultTools := some [] }

/-- The pending table at the end of a session in which the client sent
`reqs` and the server then answered every request that was actually
forwarded to it. -/
def sessionTable (ignoredTools : List String) (reqs : List Message) : Pending :=
  runResponses ignoredTools (runRequests ignoredTools [] reqs)
    ((reqs.filter (isForwarded ignoredTools)).map mkResponse)

/-! ### Token bundles and the non-PKCE provider
(`src/lib/oauth-provider-non-pkce.ts`)

Every field is optional, as on the JavaScript side; truthiness checks
(`!tokens.access_token`, `tokens.refresh_token`, `expires_in &&
expires_in > 0`) are spelled out with `strTruthy` and friends. -/

/-- A stored or returned OAuth token bundle. -/
structure Tokens where
  access_token : Option String := none
  token_type : Option String := none
  expires_in : Option Int := none
  refresh_token : Option String := none
  scope : Option String := none
deriving DecidableEq

/-- JS `a || default` for an optional string against a string default
(used for `tokenData.token_type || 'Bearer'`). -/
def jsOrDefault (a : Option String) (d : String) : String :=
  match a with
  | some s => if s ≠ "" then s else d
  | none => d

/-- JS `a || b` for two optional strings
(used for `tokenData.refresh_token || existingTokens.refresh_token`). -/
def jsOr (a b : Option String) : Option String :=
  if strTruthy a then a else b

/-- The JSON body of a token-endpoint response, fields as the code reads
them. -/
structure TokenResponseData where
  access_token : Option String := none
  token_type : Option String := none
  expires_in : Option Int := none
  refresh_token : Option String := none
  scope : Option String := none
deriving DecidableEq

/-- Outcome of the `POST` to the token endpoint. -/
inductive HttpTokenResult
  | httpError (status : Nat) (body : String)
  | ok (data : TokenResponseData)
deriving DecidableEq

/-- Result of `NonPkceOAuthProvider.refreshToken`. -/
inductive RefreshResult
  | noRefreshToken
  | httpFail (status : Nat) (body : String)
  | success (tokens : Tokens)
deriving DecidableEq

/-- `refreshToken`: throws without a (truthy) stored refresh token,
propagates a non-2xx as an error, and otherwise builds, persists and
returns the new bundle, defaulting `token_type` to `Bearer` and falling
back to the previous `refresh_token` when the response's is falsy.  The
`success` payload is both the persisted and the returned bundle (the
code writes and returns the same object). -/
def refreshToken (stored : Option Tokens) (resp : HttpTokenResult) : RefreshResult :=
  match stored with
  | none => .noRefreshToken
  | some ex =>
    if strTruthy ex.refresh_token then
      match resp with
      | .httpError s b => .httpFail s b
      | .ok d =>
        .success
          { access_token := d.access_token,
            token_type := some (jsOrDefault d.token_type "Bearer"),
            expires_in := d.expires_in,
            refresh_token := jsOr d.refresh_token ex.refresh_token,
            scope := d.scope }
    else .noRefreshToken

/-- The validity test at the top of `getValidAccessToken`:
`!tokens || !tokens.access_token || (tokens.expires_in !== undefined &&
tokens.expires_in <= 0)`. -/
def tokenInvalid : Option Tokens → Bool
  | none => true
  | some t =>
    !(strTruthy t.access_token) ||
      (match t.expires_in with
       | some n => decide (n ≤ 0)
       | none => false)

/-- The re-check at the top of `startAuthorization`:
`existingTokens && existingTokens.access_token` and then
`existingTokens.expires_in && existingTokens.expires_in > 0`. -/
def startAuthShortCircuit : Option Tokens → Bool
  | none => false
  | some t =>
    strTruthy t.access_token &&
      (match t.expires_in with
       | some n => decide (0 < n)
       | none => false)

/-- What `startAuthorization` did: `Except.error` when the interactive
flow (code wait / exchange) throws, otherwise the resulting bundle plus
whether the browser flow actually ran (`false` when the stored bundle
was still valid and was returned directly). -/
def startAuthorization (stored : Option Tokens) (flow : Except Unit Tokens) :
    Except Unit (Tokens × Bool) :=
  if startAuthShortCircuit stored then
    .ok (stored.getD {}, false)
  else
    match flow with
    | .error _ => .error ()
    | .ok t => .ok (t, true)

/-- Observable outcome of `getValidAccessToken`.  The `NoToken` and
`Threw` variants are the two ways the method throws; the others carry
the returned access token and how it was obtained. -/
inductive GvatResult
  | cached (accessToken : String)
  | refreshed (tokens : Tokens) (accessToken : String)
  | authCached (tokens : Tokens) (accessToken : String)
  | browserFlow (tokens : Tokens) (accessToken : String)
  | refreshedNoToken
  | authCachedNoToken
  | browserFlowNoToken
  | browserFlowThrew
deriving DecidableEq

/-- Wrap a `startAuthorization` outcome through the final
`if (!tokens || !tokens.access_token) throw` guard. -/
def finishFromAuth (r : Except Unit (Tokens × Bool)) : GvatResult :=
  match r with
  | .error _ => .browserFlowThrew
  | .ok (t, ranBrowser) =>
    if strTruthy t.access_token then
      if ranBrowser then .browserFlow t (t.access_token.getD "")
      else .authCached t (t.access_token.getD "")
    else
      if ranBrowser then .browserFlowNoToken else .authCachedNoToken

/-- `getValidAccessToken`, with the token-endpoint refresh response and
the interactive-flow outcome supplied as oracles. -/
def getValidAccessToken (stored : Option Tokens) (refreshHttp : HttpTokenResult)
    (flow : Except Unit Tokens) : GvatResult :=
  if tokenInvalid stored then
    match stored with
    | some t =>
      if strTruthy t.refresh_token then
        match refreshToken stored refreshHttp with
        | .success tk =>
          if strTruthy tk.access_token then .refreshed tk (tk.access_token.getD "")
          else .refreshedNoToken
        | _ => finishFromAuth (startAuthorization stored flow)
      else finishFromAuth (startAuthorization stored flow)
    | none => finishFromAuth (startAuthorization stored flow)
  else
    match stored with
    | some t => .cached (t.access_token.getD "")
    | none => .cached ""

/-- A full interactive (browser) authorization was started. -/
def ranBrowserFlow : GvatResult → Bool
  | .browserFlow _ _ => true
  | .browserFlowNoToken => true
  | .browserFlowThrew => true
  | _ => false

/-! ### Transport selection with fallback
(`src/lib/utils.ts`, `connectToRemoteServer`)

One `Attempt` is the observable outcome of one try at connecting with
the currently selected transport; `connectToRemoteServer` consumes them
in order as it recurses. -/

/-- `TransportStrategy`. -/
inductive Strategy
  | sseOnly
  | httpOnly
  | sseFirst
  | httpFirst
deriving DecidableEq

/-- Which transport family the strategy selects first. -/
def usesSse : Strategy → Bool
  | .sseOnly => true
  | .sseFirst => true
  | _ => false

/-- `shouldAttemptFallback`: only the `*-first` strategies fall back. -/
def isFirstStrategy : Strategy → Bool
  | .sseFirst => true
  | .httpFirst => true
  | _ => false

/-- Substring test (`String.prototype.includes`). -/
def containsSub (haystack needle : String) : Bool :=
  decide (needle.data <:+: haystack.data)

/-- The transport-fallback error class. -/
def isFallbackErrorMsg (m : String) : Bool :=
  containsSub m "405" || containsSub m "Method Not Allowed" ||
    containsSub m "404" || containsSub m "Not Found"

/-- The unauthorized error class (message part). -/
def isUnauthorizedMsg (m : String) : Bool :=
  containsSub m "Unauthorized"

/-- `recursionReasons` as the two flags that are ever inserted. -/
structure Reasons where
  authNeeded : Bool := false
  transportFallback : Bool := false
deriving DecidableEq

def fallbackGiveUpMsg : String := "Already attempted transport fallback. Giving up."

def authGiveUpMsg : String :=
  "Already attempted reconnection for reason: authentication-needed. Giving up."

/-- One connection attempt's observable outcome: `outcome = none` is a
successful connect, `some msg` an error with that message.
`unauthorizedInstance` marks an `UnauthorizedError`; `finishAuthError`
is the outcome of `transport.finishAuth` when the auth path runs (the
code awaits the auth code before it; those waits are assumed to
resolve). -/
structure Attempt where
  outcome : Option String := none
  unauthorizedInstance : Bool := false
  finishAuthError : Option String := none
deriving DecidableEq

/-- Result of `connectToRemoteServer`. -/
inductive ConnResult
  | connected (usedSse : Bool)
  | threw (msg : String)
  | stuck
deriving DecidableEq

/-- `connectToRemoteServer`: on a fallback-class error under a `*-first`
strategy, recurse once with the *other* transport as an `*-only`
strategy (recording the fallback reason); on an unauthorized error, run
the auth flow and recurse with the same strategy (recording the auth
reason, checked only after `finishAuth` succeeds); otherwise rethrow.
`stuck` only marks the attempt list running out. -/
def connectToRemoteServer : Strategy → Reasons → List Attempt → ConnResult
  | _, _, [] => .stuck
  | strat, rs, a :: rest =>
    match a.outcome with
    | none => .connected (usesSse strat)
    | some msg =>
      if isFallbackErrorMsg msg && isFirstStrategy strat then
        if rs.transportFallback then .threw fallbackGiveUpMsg
        else
          connectToRemoteServer (if usesSse strat then .httpOnly else .sseOnly)
            { rs with transportFallback := true } rest
      else if a.unauthorizedInstance || isUnauthorizedMsg msg then
        match a.finishAuthError with
        | some m => .threw m
        | none =>
          if rs.authNeeded then .threw authGiveUpMsg
          else connectToRemoteServer strat { rs with authNeeded := true } rest
      else .threw msg

/-! ### OAuth endpoint discovery
(`src/lib/oauth-connect-non-pkce.ts`, `discoverOAuthEndpoints`)

The three network exchanges are oracles; `Except.error` stands for a
thrown `fetch`/`json()`/`new URL` failure, each of which the source
catches.  The server URL is represented by its origin: every URL that
reaches this function has already been parsed successfully by
`parseCommandLineArgs`. -/

/-- `parseWWWAuthenticate`: first match of
`resource_metadata="([^"]+)"`, scanning left to right; the capture must
be non-empty and closed by a quote. -/
def parseWWWAuthHere (s : List Char) : Option (List Char) :=
  let key := "resource_metadata=\"".data
  if key.isPrefixOf s then
    let rest := s.drop key.length
    let cap := rest.takeWhile fun c => decide (c ≠ '\"')
    if cap.length ≠ 0 ∧ cap.length < rest.length then some cap else none
  else none

def parseWWWAuthenticate : List Char → Option (List Char)
  | [] => none
  | c :: cs =>
    match parseWWWAuthHere (c :: cs) with
    | some cap => some cap
    | none => parseWWWAuthenticate cs

/-- The initial unauthenticated `GET <serverUrl>`:
status plus the `WWW-Authenticate` header if present (the source looks
the header up under both casings). -/
structure HttpInitResp where
  status : Nat
  wwwAuthenticate : Option String := none
deriving DecidableEq

/-- The protected-resource metadata response. -/
structure ResourceMetaResp where
  ok : Bool
  authorization_servers : Option (List String) := none
deriving DecidableEq

/-- The authorization-server metadata response (the fetch of
`<authServer>/.well-known/oauth-authorization-server`; a malformed
authorization-server URL is a thrown error like a failed fetch). -/
structure AuthServerMetaResp where
  ok : Bool
  authorization_endpoint : Option String := none
  token_endpoint : Option String := none
deriving DecidableEq

/-- The network oracle for one discovery run. -/
structure DiscoveryEnv where
  initial : Except Unit HttpInitResp
  resourceMeta : Except Unit ResourceMetaResp
  authServerMeta : Except Unit AuthServerMetaResp

/-- `discoverOAuthEndpoints`, returning
`(authorizationEndpoint, tokenEndpoint)`. -/
def discoverOAuthEndpoints (serverOrigin : String) (env : DiscoveryEnv) :
    String × String :=
  let fallback := (serverOrigin ++ "/oauth/authorize", serverOrigin ++ "/oauth/token")
  match env.initial with
  | .error _ => fallback
  | .ok r =>
    if r.status = 401 then
      match r.wwwAuthenticate with
      | none => fallback
      | some h =>
        match parseWWWAuthenticate h.data with
        | none => fallback
        | some _ =>
          match env.resourceMeta with
          | .error _ => fallback
          | .ok rm =>
            if rm.ok then
              match rm.authorization_servers with
              | some (_ :: _) =>
                match env.authServerMeta with
                | .error _ => fallback
                | .ok am =>
                  if am.ok then
                    match am.authorization_endpoint, am.token_endpoint with
                    | some ae, some te =>
                      if ae ≠ "" ∧ te ≠ "" then (ae, te) else fallback
                    | _, _ => fallback
                  else fallback
              | _ => fallback
            else fallback
    else fallback

/-- Whether the whole discovery chain succeeds (so that the discovered
endpoints, not the fallback, are returned). -/
def discoveryChainOk (env : DiscoveryEnv) : Bool :=
  match env.initial with
  | .error _ => false
  | .ok r =>
    decide (r.status = 401) &&
      (match r.wwwAuthenticate with
       | none => false
       | some h => (parseWWWAuthenticate h.data).isSome) &&
      (match env.resourceMeta with
       | .error _ => false
       | .ok rm =>
         rm.ok &&
           (match rm.authorization_servers with
            | some (_ :: _) => true
            | _ => false)) &&
      (match env.authServerMeta with
       | .error _ => false
       | .ok am =>
         am.ok &&
           (match am.authorization_endpoint, am.token_endpoint with
            | some ae, some te => decide (ae ≠ "") && decide (te ≠ "")
            | _, _ => false))

/-! ### Server fingerprint and default callback port
(`src/lib/utils.ts`, `calculateDefaultPort`) -/

/-- Value of one lowercase/uppercase hex digit (0 for anything else,
which the validity hypotheses rule out). -/
def hexDigitVal (c : Char) : Nat :=
  if 48 ≤ c.toNat ∧ c.toNat ≤ 57 then c.toNat - 48
  else if 97 ≤ c.toNat ∧ c.toNat ≤ 102 then c.toNat - 87
  else if 65 ≤ c.toNat ∧ c.toNat ≤ 70 then c.toNat - 55
  else 0

/-- A lowercase hex digit, as produced by `digest('hex')`. -/
def isLowerHexDigit (c : Char) : Bool :=
  decide ((48 ≤ c.toNat ∧ c.toNat ≤ 57) ∨ (97 ≤ c.toNat ∧ c.toNat ≤ 102))

/-- `parseInt(·, 16)` on a string of hex digits, most significant
first. -/
def parseHex : List Char → Nat
  | [] => 0
  | c :: cs => hexDigitVal c * 16 ^ cs.length + parseHex cs

/-- The whole 128-bit fingerprint as a number. -/
def digestVal (h : String) : Nat := parseHex h.data

/-- `calculateDefaultPort`:
`3335 + (parseInt(serverUrlHash.substring(0, 4), 16) % 45816)`. -/
def calculateDefaultPort (serverUrlHash : String) : Nat :=
  3335 + parseHex (serverUrlHash.data.take 4) % 45816

/-! ### Credential store reads
(`src/lib/mcp-auth-config.ts`, `readJsonFile`; the provider's
`getTokens`; `checkLockfile`)

The filesystem and `JSON.parse` outcomes form an oracle; the schema is
an explicit function, with `Except.error` for a throwing validation
(the zod schemas) — `checkLockfile`'s hand-rolled schema instead
resolves to `null`, i.e. returns `Except.ok none`. -/

/-- What happened while reading a config file. -/
inductive ReadOutcome (J : Type)
  | mkdirError
  | fileMissing
  | readError
  | content (parsed : Option J)
deriving DecidableEq

/-- `readJsonFile`: every failure (directory creation, missing file,
unreadable file, `JSON.parse` throw, schema throw) is caught and
surfaces as `none` (after at most a logged warning). -/
def readJsonFile {J T : Type} (o : ReadOutcome J) (schema : J → Except Unit T) :
    Option T :=
  match o with
  | .mkdirError => none
  | .fileMissing => none
  | .readError => none
  | .content none => none
  | .content (some j) =>
    match schema j with
    | .error _ => none
    | .ok v => some v

/-- A JSON field value as the schemas inspect it. -/
inductive JField
  | absent
  | str (s : String)
  | num (n : Int)
  | other
deriving DecidableEq

/-- The raw JSON shape of a stored token bundle. -/
structure TokensJson where
  access_token : JField := .absent
  token_type : JField := .absent
  expires_in : JField := .absent
  refresh_token : JField := .absent
  scope : JField := .absent
deriving DecidableEq

/-- An optional-number field accepted by the schema. -/
def optNumField : JField → Except Unit (Option Int)
  | .absent => .ok none
  | .num n => .ok (some n)
  | _ => .error ()

/-- An optional-string field accepted by the schema. -/
def optStrField : JField → Except Unit (Option String)
  | .absent => .ok none
  | .str s => .ok (some s)
  | _ => .error ()

/-- The SDK's `OAuthTokensSchema` (zod): `access_token` and
`token_type` must be strings, the rest are optional with the indicated
types; a mismatch throws. -/
def oauthTokensSchema (j : TokensJson) : Except Unit Tokens :=
  match j.access_token, j.token_type with
  | .str a, .str tt => do
    let e ← optNumField j.expires_in
    let r ← optStrField j.refresh_token
    let s ← optStrField j.scope
    .ok { access_token := some a, token_type := some tt, expires_in := e,
          refresh_token := r, scope := s }
  | _, _ => .error ()

/-- `NonPkceOAuthProvider.getTokens`: `readJsonFile` with the tokens
schema (the surrounding code only logs). -/
def getTokens (o : ReadOutcome TokensJson) : Option Tokens :=
  readJsonFile o oauthTokensSchema

/-- The lockfile's JSON shape. -/
structure LockJson where
  pid : JField := .absent
  port : JField := .absent
  timestamp : JField := .absent
deriving DecidableEq

/-- `{pid, port, timestamp}` as validated. -/
structure LockfileData where
  pid : Int
  port : Int
  timestamp : Int
deriving DecidableEq

/-- `checkLockfile`'s inline schema: it never throws, resolving to the
data or to `null`. -/
def lockfileSchema (j : LockJson) : Except Unit (Option LockfileData) :=
  match j.pid, j.port, j.timestamp with
  | .num p, .num q, .num t => .ok (some { pid := p, port := q, timestamp := t })
  | _, _, _ => .ok none

/-- `checkLockfile`: `readJsonFile` with the inline schema, then
`lockfile || null` under an outer catch-all. -/
def checkLockfile (o : ReadOutcome LockJson) : Option LockfileData :=
  match readJsonFile o lockfileSchema with
  | some (some l) => some l
  | _ => none

/-- The read attempt did not produce schema-accepted content. -/
def readFailed {J T : Type} (o : ReadOutcome J) (schema : J → Except Unit T) : Prop :=
  ∀ j v, o = .content (some j) → schema j ≠ .ok v

/-! ### Theorems -/

theorem lowerEq_length {a b : List Char} (h : lowerEq a b = true) :
    a.length = b.length := by
  have h2 : a.map Char.toLower = b.map Char.toLower := by
    simpa [lowerEq] using h
  simpa using congrArg List.length h2

theorem matchSegs_iff : ∀ (segs : List (List Char)) (s : List Char),
    matchSegs segs s = true ↔ MatchSpec segs s
  | [], s => by simp [matchSegs, MatchSpec, List.isEmpty_iff]
  | [seg], s => by simp [matchSegs, MatchSpec]
  | seg :: seg2 :: rest, s => by
    constructor
    · intro h
      simp only [matchSegs, Bool.and_eq_true, List.any_eq_true, List.mem_range,
        decide_eq_true_eq] at h
      obtain ⟨⟨hlen, hpref⟩, k, hk, hgap, hrec⟩ := h
      refine ⟨s.take seg.length, (s.drop seg.length).take k,
        (s.drop seg.length).drop k, ?_, hpref, hgap, ?_⟩
      · rw [List.append_assoc, List.take_append_drop, List.take_append_drop]
      · exact (matchSegs_iff (seg2 :: rest) _).mp hrec
    · intro h
      obtain ⟨p, g, t, hs, hp, hg, ht⟩ := h
      have hplen : seg.length = p.length := lowerEq_length hp
      have htake : s.take seg.length = p := by
        rw [hs, hplen, List.append_assoc, List.take_left]
      have hdrop : s.drop seg.length = g ++ t := by
        rw [hs, hplen, List.append_assoc, List.drop_left]
      have hslen : s.length = p.length + (g.length + t.length) := by
        simp [hs]
      simp only [matchSegs, Bool.and_eq_true, List.any_eq_true, List.mem_range,
        decide_eq_true_eq]
      refine ⟨⟨by omega, htake ▸ hp⟩, g.length, by omega, ?_, ?_⟩
      · rw [hdrop, List.take_left]
        exact hg
      · rw [hdrop, List.drop_left]
        exact (matchSegs_iff (seg2 :: rest) t).mpr ht

/-- C3: `shouldIncludeTool(patterns, name)` returns `false` iff at least
one pattern — split on `*`, each segment matched literally and
case-insensitively, segments joined by `.*`, anchored at both ends —
matches the name; with an empty (or missing) pattern list every tool
name is included. -/
theorem shouldIncludeTool_spec (patterns : List String) (name : String) :
    (shouldIncludeTool patterns name = false ↔
      ∃ p ∈ patterns, MatchSpec (splitOnStar p.data) name.data) ∧
    (patterns = [] → shouldIncludeTool patterns name = true) := by
  constructor
  · cases patterns with
    | nil => simp [shouldIncludeTool]
    | cons q qs =>
      have hval : shouldIncludeTool (q :: qs) name =
          !((q :: qs).any fun p => patternMatches p name) := by
        simp [shouldIncludeTool]
      rw [hval, Bool.not_eq_false', List.any_eq_true]
      constructor
      · rintro ⟨p, hp, hm⟩
        exact ⟨p, hp, (matchSegs_iff _ _).mp hm⟩
      · rintro ⟨p, hp, hm⟩
        exact ⟨p, hp, (matchSegs_iff _ _).mpr hm⟩
  · intro h
    subst h
    simp [shouldIncludeTool]

/-- Witness for C3: the empty-pattern clause at a concrete input. -/
theorem shouldIncludeTool_spec_witness : shouldIncludeTool [] "anyTool" = true :=
  (shouldIncludeTool_spec [] "anyTool").2 rfl

/-- C4 (amended): for a `tools/call` with a truthy id and a truthy
(non-empty) tool name, an excluded name is not forwarded — the proxy
answers the client with exactly the JSON-RPC error
`{jsonrpc: "2.0", id, error: {code: -32603, message: Tool "name" is
not available}}` — and an included name is forwarded unchanged. -/
theorem toolsCall_filtering (ig : List String) (st : Pending) (m : Message)
    (v : JVal) (name : String)
    (hm : m.method = some "tools/call") (hname : m.paramsName = some name)
    (hne : name ≠ "") (hid : m.id = some v) (hv : v.truthy = true) :
    (shouldIncludeTool ig name = false →
      onClientMessage ig st m =
        (pendingSet st v m,
         .errorToClient
           { jsonrpc := "2.0", id := m.id, code := -32603,
             message := "Tool \"" ++ name ++ "\" is not available" })) ∧
    (shouldIncludeTool ig name = true →
      onClientMessage ig st m = (pendingSet st v m, .forward m)) := by
  constructor
  · intro hexc
    simp [onClientMessage, interceptRequest, transformRequestFunction, strTruthy,
      hm, hname, hid, hv, hne, hexc]
  · intro hinc
    simp [onClientMessage, interceptRequest, transformRequestFunction, strTruthy,
      hm, hname, hid, hv, hne, hinc]

/-- Counterexample for C4 as frozen: a `tools/call` whose id is the
falsy `0` bypasses the filter entirely — the excluded name
`deleteTask` is forwarded to the server and no error is sent. -/
theorem toolsCall_filtering_counterexample :
    onClientMessage ["delete*"] []
        { id := some (.num 0), method := some "tools/call",
          paramsName := some "deleteTask" } =
      ([], .forward
        { id := some (.num 0), method := some "tools/call",
          paramsName := some "deleteTask" }) ∧
    shouldIncludeTool ["delete*"] "deleteTask" = false := by
  decide

/-- Witness for C4: the blocking branch at a concrete message. -/
theorem toolsCall_filtering_witness :
    onClientMessage ["delete*"] []
        { id := some (.num 7), method := some "tools/call",
          paramsName := some "deleteTask" } =
      (pendingSet [] (.num 7)
        { id := some (.num 7), method := some "tools/call",
          paramsName := some "deleteTask" },
       .errorToClient
         { jsonrpc := "2.0", id := some (.num 7), code := -32603,
           message := "Tool \"" ++ "deleteTask" ++ "\" is not available" }) :=
  (toolsCall_filtering ["delete*"] [] _ (.num 7) "deleteTask" rfl rfl
    (by decide) rfl (by decide)).1 (by decide)

/-- C10: a falsy JSON-RPC id (absent, `0`, or `""`) is treated as no
id — a request is not recorded in the pending table (and not
transformed), and a response is forwarded untouched without any lookup,
so a `tools/list` response with such an id bypasses the tool filter. -/
theorem falsyId_bypass (ig : List String) (st : Pending) (m : Message)
    (h : idTruthy m.id = false) :
    interceptRequest (transformRequestFunction ig) st m = (st, .message m) ∧
    onServerMessage ig st m = (st, .ok m) := by
  cases hid : m.id with
  | none => simp [interceptRequest, onServerMessage, interceptResponse, hid]
  | some v =>
    have hv : v.truthy = false := by simpa [idTruthy, hid] using h
    simp [interceptRequest, onServerMessage, interceptResponse, hid, hv]

/-- Witness for C10: a `tools/list` response with id `0` is delivered
with its excluded tool intact, and the table (holding the `tools/list`
request under id `5`) is untouched. -/
theorem falsyId_bypass_witness :
    onServerMessage ["delete*"]
        [(JVal.num 5, { id := some (.num 5), method := some "tools/list" })]
        { id := some (.num 0), resultTools := some ["deleteTask", "listTasks"] } =
      ([(JVal.num 5, { id := some (.num 5), method := some "tools/list" })],
       .ok { id := some (.num 0), resultTools := some ["deleteTask", "listTasks"] }) :=
  (falsyId_bypass ["delete*"]
    [(JVal.num 5, { id := some (.num 5), method := some "tools/list" })]
    { id := some (.num 0), resultTools := some ["deleteTask", "listTasks"] }
    (by decide)).2

theorem onClientMessage_fst (ig : List String) (st : Pending) (m : Message) :
    (onClientMessage ig st m).1 =
      (interceptRequest (transformRequestFunction ig) st m).1 := by
  unfold onClientMessage
  rcases h : interceptRequest (transformRequestFunction ig) st m with ⟨st2, r⟩
  cases r <;> simp

theorem pendingSet_absent (st : Pending) (k : JVal) (v : Message)
    (h : ∀ e ∈ st, e.1 ≠ k) : pendingSet st k v = st ++ [(k, v)] := by
  unfold pendingSet
  rw [if_neg]
  simp only [List.any_eq_true, decide_eq_true_eq, not_exists, not_and]
  exact h

theorem runRequests_eq (ig : List String) :
    ∀ (reqs : List Message) (st : Pending),
      (∀ m ∈ reqs, idTruthy m.id = true) →
      (reqs.map fun m => m.id.getD (.num 0)).Nodup →
      (∀ m ∈ reqs, ∀ e ∈ st, e.1 ≠ m.id.getD (.num 0)) →
      runRequests ig st reqs = st ++ (reqs.map fun m => (m.id.getD (.num 0), m))
  | [], st, _, _, _ => by simp [runRequests]
  | m :: ms, st, htruthy, hnodup, habsent => by
    obtain ⟨v, hv, hvt⟩ : ∃ v, m.id = some v ∧ v.truthy = true := by
      cases hid : m.id with
      | none => simp [idTruthy, hid] at htruthy
      | some v => exact ⟨v, rfl, by simpa [idTruthy, hid] using htruthy m (by simp)⟩
    have hstep : (onClientMessage ig st m).1 = pendingSet st v m := by
      rw [onClientMessage_fst]
      simp [interceptRequest, hv, hvt]
    have hset : pendingSet st v m = st ++ [(v, m)] :=
      pendingSet_absent st v m fun e he => by
        have := habsent m (by simp) e he
        simpa [hv] using this
    rw [runRequests, hstep, hset,
      runRequests_eq ig ms (st ++ [(v, m)])
        (fun x hx => htruthy x (by simp [hx]))
        (by simpa using hnodup.of_cons)
        ?_]
    · simp [hv]
    · intro x hx e he
      rcases List.mem_append.mp he with hst | hlast
      · exact habsent x (by simp [hx]) e hst
      · have hkey : e.1 = v := by
          simp only [List.mem_singleton] at hlast
          rw [hlast]
        rw [hkey]
        have hne := (List.nodup_cons.mp hnodup).1
        intro hcontra
        refine hne ?_
        simp only [hv, Option.getD_some]
        rw [hcontra]
        exact List.mem_map_of_mem _ hx

theorem runResponses_clears (ig : List String) :
    ∀ (reqs : List Message),
      (∀ m ∈ reqs, idTruthy m.id = true) →
      (reqs.map fun m => m.id.getD (.num 0)).Nodup →
      runResponses ig (reqs.map fun m => (m.id.getD (.num 0), m))
        (reqs.map mkResponse) = []
  | [], _, _ => by simp [runResponses]
  | m :: ms, htruthy, hnodup => by
    obtain ⟨v, hv, hvt⟩ : ∃ v, m.id = some v ∧ v.truthy = true := by
      cases hid : m.id with
      | none => simp [idTruthy, hid] at htruthy
      | some v => exact ⟨v, rfl, by simpa [idTruthy, hid] using htruthy m (by simp)⟩
    have hstep :
        (onServerMessage ig ((v, m) :: (ms.map fun q => (q.id.getD (.num 0), q)))
          (mkResponse m)).1 =
          pendingDelete ((v, m) :: (ms.map fun q => (q.id.getD (.num 0), q))) v := by
      simp [onServerMessage, interceptResponse, mkResponse, hv, hvt]
    have hdel :
        pendingDelete ((v, m) :: (ms.map fun q => (q.id.getD (.num 0), q))) v =
          ms.map fun q => (q.id.getD (.num 0), q) := by
      unfold pendingDelete
      have hhead : (decide ((v, m).1 ≠ v)) = false := by simp
      rw [List.filter_cons, hhead]
      simp only [Bool.false_eq_true, if_false]
      apply List.filter_eq_self.mpr
      intro e he
      obtain ⟨q, hq, rfl⟩ := List.mem_map.mp he
      have hne := (List.nodup_cons.mp hnodup).1
      simp only [decide_eq_true_eq, ne_eq]
      intro hcontra
      refine hne ?_
      simp only [hv, Option.getD_some]
      rw [← hcontra]
      exact List.mem_map_of_mem _ hq
    simp only [List.map_cons, hv, Option.getD_some]
    rw [runResponses, hstep, hdel]
    exact runResponses_clears ig ms (fun x hx => htruthy x (by simp [hx]))
      (by simpa using hnodup.of_cons)

/-- C7 (amended): every request with a truthy id — forwarded or
blocked — is inserted into the pending table before the transform runs,
and a matching response removes it; so when all requests have distinct
truthy ids, none is blocked by the tool filter, and the server has
answered every forwarded request, the table is empty.  (A blocked
request's entry is never removed: see the counterexample.) -/
theorem pendingTable_empty (ig : List String) (reqs : List Message)
    (htruthy : ∀ m ∈ reqs, idTruthy m.id = true)
    (hnodup : (reqs.map fun m => m.id.getD (.num 0)).Nodup)
    (hfwd : ∀ m ∈ reqs, isForwarded ig m = true) :
    sessionTable ig reqs = [] := by
  unfold sessionTable
  rw [List.filter_eq_self.mpr hfwd,
    runRequests_eq ig reqs [] htruthy hnodup (by simp)]
  simpa using runResponses_clears ig reqs htruthy hnodup

/-- Counterexample for C7 as frozen: a blocked `tools/call` (never
forwarded, hence never answered) leaves a permanent entry, so the table
is not empty even though every *forwarded* request has been responded
to. -/
theorem pendingTable_empty_counterexample :
    sessionTable ["delete*"]
        [{ id := some (.num 1), method := some "tools/call",
           paramsName := some "deleteTask" }] =
      [(.num 1,
        { id := some (.num 1), method := some "tools/call",
          paramsName := some "deleteTask" })] ∧
    isForwarded ["delete*"]
        { id := some (.num 1), method := some "tools/call",
          paramsName := some "deleteTask" } = false := by
  decide

/-- Witness for C7: a clean session (one forwarded `tools/list`
request, one response) ends with an empty table. -/
theorem pendingTable_empty_witness :
    sessionTable ["delete*"] [{ id := some (.num 1), method := some "tools/list" }] = [] :=
  pendingTable_empty ["delete*"] [{ id := some (.num 1), method := some "tools/list" }]
    (by decide) (by decide) (by decide)

theorem shortCircuit_false_of_invalid (stored : Option Tokens)
    (h : tokenInvalid stored = true) : startAuthShortCircuit stored = false := by
  cases stored with
  | none => rfl
  | some t =>
    unfold tokenInvalid at h
    unfold startAuthShortCircuit
    cases hacc : strTruthy t.access_token with
    | false => simp [hacc]
    | true =>
      simp only [hacc, Bool.not_true, Bool.false_or] at h
      cases hexp : t.expires_in with
      | none => simp [hexp] at h
      | some n =>
        simp only [hexp, decide_eq_true_eq] at h
        simp [hacc, hexp]
        omega

theorem ranBrowser_of_invalid (stored : Option Tokens) (flow : Except Unit Tokens)
    (h : tokenInvalid stored = true) :
    ranBrowserFlow (finishFromAuth (startAuthorization stored flow)) = true := by
  unfold startAuthorization
  rw [shortCircuit_false_of_invalid stored h]
  simp only [Bool.false_eq_true, if_false]
  cases flow with
  | error e => rfl
  | ok t =>
    unfold finishFromAuth
    cases hacc : strTruthy t.access_token <;> simp [hacc, ranBrowserFlow]

/-- C1 (amended): `getValidAccessToken` follows the decision chain of
the source: a stored bundle with a truthy (non-empty) `access_token`
and `expires_in` absent or positive is returned with no network call;
otherwise a truthy stored `refresh_token` leads to a refresh attempt
whose success is persisted and returned; and with no truthy
`refresh_token` — or after a failed refresh — a full interactive
authorization is started (in particular for a bundle with
`expires_in ≤ 0` and no refresh token). -/
theorem getValidAccessToken_chain (stored : Option Tokens)
    (rh : HttpTokenResult) (flow : Except Unit Tokens) :
    (∀ t, stored = some t → strTruthy t.access_token = true →
      (t.expires_in = none ∨ ∃ n, t.expires_in = some n ∧ 0 < n) →
      getValidAccessToken stored rh flow = .cached (t.access_token.getD "")) ∧
    (∀ t, stored = some t → tokenInvalid stored = true →
      strTruthy t.refresh_token = true →
      ∀ tk, refreshToken stored rh = .success tk → strTruthy tk.access_token = true →
      getValidAccessToken stored rh flow = .refreshed tk (tk.access_token.getD "")) ∧
    (tokenInvalid stored = true →
      (∀ t, stored = some t → strTruthy t.refresh_token = false) →
      ranBrowserFlow (getValidAccessToken stored rh flow) = true) ∧
    (∀ t s b, stored = some t → tokenInvalid stored = true →
      strTruthy t.refresh_token = true → refreshToken stored rh = .httpFail s b →
      ranBrowserFlow (getValidAccessToken stored rh flow) = true) := by
  refine ⟨?_, ?_, ?_, ?_⟩
  · intro t hst hacc hexp
    have hvalid : tokenInvalid stored = false := by
      subst hst
      unfold tokenInvalid
      rcases hexp with hnone | ⟨n, hn, hpos⟩
      · simp [hacc, hnone]
      · simp [hacc, hn]
        omega
    unfold getValidAccessToken
    rw [hvalid]
    subst hst
    simp
  · intro t hst hinv hrt tk hsucc hacc
    subst hst
    simp [getValidAccessToken, hinv, hrt, hsucc, hacc]
  · intro hinv hrt
    cases stored with
    | none =>
      simp only [getValidAccessToken, hinv, if_true]
      exact ranBrowser_of_invalid none flow hinv
    | some t =>
      have h1 := hrt t rfl
      simp only [getValidAccessToken, hinv, if_true, h1, Bool.false_eq_true, if_false]
      exact ranBrowser_of_invalid (some t) flow hinv
  · intro t s b hst hinv hrt hfail
    subst hst
    simp only [getValidAccessToken, hinv, if_true, hrt, hfail]
    exact ranBrowser_of_invalid (some t) flow hinv

/-- Counterexample for C1 as frozen: a bundle whose `refresh_token`
field is *present* but the empty string is routed straight to the full
browser flow — the (would-be successful) refresh is never attempted,
because the source tests JS truthiness, not presence. -/
theorem getValidAccessToken_counterexample :
    getValidAccessToken
        (some { access_token := some "", refresh_token := some "" })
        (.ok { access_token := some "NEW", refresh_token := some "R2" })
        (.ok { access_token := some "B" }) =
      .browserFlow { access_token := some "B" } "B" := by
  decide

/-- Witness for C1: the cached branch at a concrete bundle. -/
theorem getValidAccessToken_chain_witness :
    getValidAccessToken
        (some { access_token := some "T", expires_in := some 3600 })
        (.httpError 500 "") (.error ()) = .cached "T" :=
  (getValidAccessToken_chain
      (some { access_token := some "T", expires_in := some 3600 })
      (.httpError 500 "") (.error ())).1
    { access_token := some "T", expires_in := some 3600 } rfl (by decide)
    (Or.inr ⟨3600, rfl, by decide⟩)

/-- C6 (amended): when the token endpoint's 2xx refresh response omits
`refresh_token`, the persisted-and-returned bundle keeps the previous
stored one; a non-empty `refresh_token` in the response replaces it;
and `refreshToken` fails when no stored refresh token exists. -/
theorem refreshToken_preserves (ex : Tokens) (d : TokenResponseData) (rt : String)
    (hrt : ex.refresh_token = some rt) (hne : rt ≠ "") :
    (d.refresh_token = none →
      ∃ t, refreshToken (some ex) (.ok d) = .success t ∧ t.refresh_token = some rt) ∧
    (∀ r, d.refresh_token = some r → r ≠ "" →
      ∃ t, refreshToken (some ex) (.ok d) = .success t ∧ t.refresh_token = some r) ∧
    (∀ resp, refreshToken none resp = .noRefreshToken) ∧
    (∀ tk : Tokens, tk.refresh_token = none →
      ∀ resp, refreshToken (some tk) resp = .noRefreshToken) := by
  have hex : strTruthy ex.refresh_token = true := by simp [strTruthy, hrt, hne]
  have hok : refreshToken (some ex) (.ok d) = .success
      { access_token := d.access_token,
        token_type := some (jsOrDefault d.token_type "Bearer"),
        expires_in := d.expires_in,
        refresh_token := jsOr d.refresh_token ex.refresh_token,
        scope := d.scope } := by
    simp [refreshToken, hex]
  refine ⟨?_, ?_, ?_, ?_⟩
  · intro hd
    exact ⟨_, hok, by simp [jsOr, strTruthy, hd, hrt]⟩
  · intro r hd hr
    exact ⟨_, hok, by simp [jsOr, strTruthy, hd, hr]⟩
  · intro resp
    rfl
  · intro tk htk resp
    simp [refreshToken, strTruthy, htk]

/-- Counterexample for C6 as frozen: a 2xx response that *includes*
`refresh_token` as the empty string does not replace the stored one —
the persisted bundle still carries the previous token. -/
theorem refreshToken_preserves_counterexample :
    refreshToken (some { refresh_token := some "old" })
        (.ok { access_token := some "A", refresh_token := some "" }) =
      .success { access_token := some "A", token_type := some "Bearer",
                 refresh_token := some "old" } := by
  decide

/-- Witness for C6: the omitted-`refresh_token` branch at a concrete
response. -/
theorem refreshToken_preserves_witness :
    ∃ t, refreshToken (some { refresh_token := some "old" })
        (.ok { access_token := some "A" }) = .success t ∧
      t.refresh_token = some "old" :=
  (refreshToken_preserves { refresh_token := some "old" }
      { access_token := some "A" } "old" rfl (by decide)).1 rfl

/-- C2 (amended): on a connection error whose message contains `404`,
`405`, `Not Found` or `Method Not Allowed`, a `*-first` strategy falls
back exactly once, retrying the other transport family as an `*-only`
strategy with the fallback reason recorded; a second such failure
therefore rethrows that failure's own error (the
`Already attempted transport fallback. Giving up.` error is thrown only
when a `*-first` call already carries the recorded reason); `*-only`
strategies never fall back and rethrow such (non-authorization)
errors. -/
theorem transportFallback_behavior :
    (∀ (strat : Strategy) (rs : Reasons) (msg : String) (rest : List Attempt),
      isFirstStrategy strat = true → rs.transportFallback = false →
      isFallbackErrorMsg msg = true →
      connectToRemoteServer strat rs ({ outcome := some msg } :: rest) =
        connectToRemoteServer (if usesSse strat then .httpOnly else .sseOnly)
          { rs with transportFallback := true } rest) ∧
    (∀ (strat : Strategy) (msg1 msg2 : String) (rest : List Attempt),
      isFirstStrategy strat = true →
      isFallbackErrorMsg msg1 = true → isFallbackErrorMsg msg2 = true →
      isUnauthorizedMsg msg2 = false →
      connectToRemoteServer strat {}
          ({ outcome := some msg1 } :: { outcome := some msg2 } :: rest) =
        .threw msg2) ∧
    (∀ (strat : Strategy) (rs : Reasons) (msg : String) (rest : List Attempt),
      isFirstStrategy strat = false → isUnauthorizedMsg msg = false →
      connectToRemoteServer strat rs ({ outcome := some msg } :: rest) = .threw msg) ∧
    (∀ (strat : Strategy) (rs : Reasons) (msg : String) (rest : List Attempt),
      isFirstStrategy strat = true → rs.transportFallback = true →
      isFallbackErrorMsg msg = true →
      connectToRemoteServer strat rs ({ outcome := some msg } :: rest) =
        .threw fallbackGiveUpMsg) := by
  have honly : ∀ (strat : Strategy) (rs : Reasons) (msg : String) (rest : List Attempt),
      isFirstStrategy strat = false → isUnauthorizedMsg msg = false →
      connectToRemoteServer strat rs ({ outcome := some msg } :: rest) = .threw msg := by
    intro strat rs msg rest hfirst hunauth
    simp [connectToRemoteServer, hfirst, hunauth]
  have hfall : ∀ (strat : Strategy) (rs : Reasons) (msg : String) (rest : List Attempt),
      isFirstStrategy strat = true → rs.transportFallback = false →
      isFallbackErrorMsg msg = true →
      connectToRemoteServer strat rs ({ outcome := some msg } :: rest) =
        connectToRemoteServer (if usesSse strat then .httpOnly else .sseOnly)
          { rs with transportFallback := true } rest := by
    intro strat rs msg rest hfirst hrs hmsg
    simp [connectToRemoteServer, hfirst, hrs, hmsg]
  refine ⟨hfall, ?_, honly, ?_⟩
  · intro strat msg1 msg2 rest hfirst h1 h2 hunauth
    rw [hfall strat {} msg1 ({ outcome := some msg2 } :: rest) hfirst rfl h1]
    have : isFirstStrategy (if usesSse strat then Strategy.httpOnly else Strategy.sseOnly) = false := by
      cases strat <;> simp [usesSse, isFirstStrategy]
    exact honly _ _ msg2 rest this hunauth
  · intro strat rs msg rest hfirst hrs hmsg
    simp [connectToRemoteServer, hfirst, hrs, hmsg]

/-- Counterexample for C2 as frozen: under `http-first`, a second 405
failure (now under the `sse-only` retry) rethrows the 405 error itself,
not the fatal `Already attempted transport fallback. Giving up.`. -/
theorem transportFallback_counterexample :
    connectToRemoteServer .httpFirst {}
        [{ outcome := some "Error POSTing to endpoint (HTTP 405): Method Not Allowed" },
         { outcome := some "Error POSTing to endpoint (HTTP 405): Method Not Allowed" }] =
      .threw "Error POSTing to endpoint (HTTP 405): Method Not Allowed" ∧
    "Error POSTing to endpoint (HTTP 405): Method Not Allowed" ≠ fallbackGiveUpMsg := by
  constructor
  · decide
  · decide

/-- Witness for C2: the one-retry-then-rethrow behavior at concrete
messages. -/
theorem transportFallback_behavior_witness :
    connectToRemoteServer .httpFirst {}
        [{ outcome := some "HTTP 405" }, { outcome := some "HTTP 404" }] =
      .threw "HTTP 404" :=
  transportFallback_behavior.2.1 .httpFirst "HTTP 405" "HTTP 404" []
    (by decide) (by decide) (by decide) (by decide)

/-- C5: `discoverOAuthEndpoints` is total (it is a Lean function of the
network oracle; every fetch / JSON / URL failure is an `Except.error` it
consumes), and whenever any step of the chain fails it returns the
fallback pair `(<origin>/oauth/authorize, <origin>/oauth/token)`; when
the whole chain succeeds it returns the advertised endpoints. -/
theorem discoverOAuthEndpoints_total (origin : String) (env : DiscoveryEnv) :
    (discoveryChainOk env = false →
      discoverOAuthEndpoints origin env =
        (origin ++ "/oauth/authorize", origin ++ "/oauth/token")) ∧
    (discoveryChainOk env = true →
      ∃ am, env.authServerMeta = .ok am ∧
        ∃ ae te, am.authorization_endpoint = some ae ∧ am.token_endpoint = some te ∧
          discoverOAuthEndpoints origin env = (ae, te)) := by
  rcases env with ⟨ini, rmeta, ameta⟩
  rcases ini with e | r
  · exact ⟨fun _ => rfl, fun h => by simp [discoveryChainOk] at h⟩
  · by_cases h401 : r.status = 401
    · rcases hwa : r.wwwAuthenticate with _ | hdr
      · refine ⟨fun _ => ?_, fun h => ?_⟩
        · simp [discoverOAuthEndpoints, h401, hwa]
        · simp [discoveryChainOk, h401, hwa] at h
      · rcases hp : parseWWWAuthenticate hdr.data with _ | cap
        · refine ⟨fun _ => ?_, fun h => ?_⟩
          · simp [discoverOAuthEndpoints, h401, hwa, hp]
          · simp [discoveryChainOk, h401, hwa, hp] at h
        · rcases rmeta with e | rm
          · refine ⟨fun _ => ?_, fun h => ?_⟩
            · simp [discoverOAuthEndpoints, h401, hwa, hp]
            · simp [discoveryChainOk, h401, hwa, hp] at h
          · by_cases hrmok : rm.ok = true
            · rcases hsrv : rm.authorization_servers with _ | ⟨_ | ⟨s, srest⟩⟩
              · refine ⟨fun _ => ?_, fun h => ?_⟩
                · simp [discoverOAuthEndpoints, h401, hwa, hp, hrmok, hsrv]
                · simp [discoveryChainOk, h401, hwa, hp, hrmok, hsrv] at h
              · refine ⟨fun _ => ?_, fun h => ?_⟩
                · simp [discoverOAuthEndpoints, h401, hwa, hp, hrmok, hsrv]
                · simp [discoveryChainOk, h401, hwa, hp, hrmok, hsrv] at h
              · rcases ameta with e | am
                · refine ⟨fun _ => ?_, fun h => ?_⟩
                  · simp [discoverOAuthEndpoints, h401, hwa, hp, hrmok, hsrv]
                  · simp [discoveryChainOk, h401, hwa, hp, hrmok, hsrv] at h
                · by_cases hamok : am.ok = true
                  · rcases hae : am.authorization_endpoint with _ | ae
                    · refine ⟨fun _ => ?_, fun h => ?_⟩
                      · simp [discoverOAuthEndpoints, h401, hwa, hp, hrmok, hsrv, hamok, hae]
                      · simp [discoveryChainOk, h401, hwa, hp, hrmok, hsrv, hamok, hae] at h
                    · rcases hte : am.token_endpoint with _ | te
                      · refine ⟨fun _ => ?_, fun h => ?_⟩
                        · simp [discoverOAuthEndpoints, h401, hwa, hp, hrmok, hsrv, hamok, hae, hte]
                        · simp [discoveryChainOk, h401, hwa, hp, hrmok, hsrv, hamok, hae, hte] at h
                      · by_cases hne : ae ≠ "" ∧ te ≠ ""
                        · refine ⟨fun h => ?_, fun _ => ?_⟩
                          · simp [discoveryChainOk, h401, hwa, hp, hrmok, hsrv, hamok, hae, hte, hne.1, hne.2] at h
                          · exact ⟨am, rfl, ae, te, hae, hte, by
                              simp [discoverOAuthEndpoints, h401, hwa, hp, hrmok, hsrv, hamok, hae, hte, hne]⟩
                        · refine ⟨fun _ => ?_, fun h => ?_⟩
                          · simp [discoverOAuthEndpoints, h401, hwa, hp, hrmok, hsrv, hamok, hae, hte, hne]
                          · rw [Decidable.not_and_iff_or_not] at hne
                            rcases hne with hne | hne <;>
                              simp [discoveryChainOk, h401, hwa, hp, hrmok, hsrv, hamok, hae, hte,
                                Decidable.not_not.mp hne] at h
                  · have hamok2 : am.ok = false := by simpa using hamok
                    refine ⟨fun _ => ?_, fun h => ?_⟩
                    · simp [discoverOAuthEndpoints, h401, hwa, hp, hrmok, hsrv, hamok2]
                    · simp [discoveryChainOk, h401, hwa, hp, hrmok, hsrv, hamok2] at h
            · have hrmok2 : rm.ok = false := by simpa using hrmok
              refine ⟨fun _ => ?_, fun h => ?_⟩
              · simp [discoverOAuthEndpoints, h401, hwa, hp, hrmok2]
              · simp [discoveryChainOk, h401, hwa, hp, hrmok2] at h
    · refine ⟨fun _ => ?_, fun h => ?_⟩
      · simp [discoverOAuthEndpoints, h401]
      · simp [discoveryChainOk, h401] at h

/-- Witness for C5: a 404 (non-401) first response yields the fallback
endpoints at a concrete origin. -/
theorem discoverOAuthEndpoints_total_witness :
    discoverOAuthEndpoints "https://mcp.example.com"
        { initial := .ok { status := 404 }, resourceMeta := .error (),
          authServerMeta := .error () } =
      ("https://mcp.example.com/oauth/authorize", "https://mcp.example.com/oauth/token") :=
  (discoverOAuthEndpoints_total "https://mcp.example.com"
      { initial := .ok { status := 404 }, resourceMeta := .error (),
        authServerMeta := .error () }).1 (by decide)

theorem parseHex_append (a b : List Char) :
    parseHex (a ++ b) = parseHex a * 16 ^ b.length + parseHex b := by
  induction a with
  | nil => simp [parseHex]
  | cons c cs ih =>
    have hc : ((c :: cs) ++ b) = c :: (cs ++ b) := rfl
    rw [hc]
    show hexDigitVal c * 16 ^ (cs ++ b).length + parseHex (cs ++ b) = _
    rw [ih, List.length_append, pow_add, parseHex]
    ring

theorem hexDigitVal_lt (c : Char) (h : isLowerHexDigit c = true) :
    hexDigitVal c < 16 := by
  unfold isLowerHexDigit at h
  rw [decide_eq_true_eq] at h
  unfold hexDigitVal
  split_ifs <;> omega

theorem parseHex_lt (l : List Char) (h : ∀ c ∈ l, isLowerHexDigit c = true) :
    parseHex l < 16 ^ l.length := by
  induction l with
  | nil => simp [parseHex]
  | cons c cs ih =>
    have hc : hexDigitVal c < 16 := hexDigitVal_lt c (h c (by simp))
    have hcs : parseHex cs < 16 ^ cs.length := ih fun x hx => h x (by simp [hx])
    simp only [parseHex, List.length_cons, pow_succ]
    calc hexDigitVal c * 16 ^ cs.length + parseHex cs
        < hexDigitVal c * 16 ^ cs.length + 16 ^ cs.length := by omega
      _ = (hexDigitVal c + 1) * 16 ^ cs.length := by ring
      _ ≤ 16 * 16 ^ cs.length := by
          exact Nat.mul_le_mul_right _ (by omega)
      _ = 16 ^ cs.length * 16 := by ring

/-- C8: for a 32-character lowercase-hex fingerprint, the default
callback port is `3335 + (first 16 bits of the digest mod 45816)`
(`parseInt` of the first 4 hex digits is the top 16 bits); every result
lies in `3335..49150`, and a digest starting `ff00` yields `22799`. -/
theorem calculateDefaultPort_spec (h : String)
    (hlen : h.data.length = 32) (hhex : ∀ c ∈ h.data, isLowerHexDigit c = true) :
    calculateDefaultPort h = 3335 + digestVal h / 2 ^ 112 % 45816 ∧
    3335 ≤ calculateDefaultPort h ∧ calculateDefaultPort h ≤ 49150 ∧
    (h.data.take 4 = ['f', 'f', '0', '0'] → calculateDefaultPort h = 22799) := by
  have hsplit : digestVal h =
      parseHex (h.data.take 4) * 16 ^ (h.data.drop 4).length + parseHex (h.data.drop 4) := by
    unfold digestVal
    conv_lhs => rw [← List.take_append_drop 4 h.data]
    exact parseHex_append _ _
  have hdlen : (h.data.drop 4).length = 28 := by
    simp [hlen]
  have hdlt : parseHex (h.data.drop 4) < 16 ^ 28 := by
    rw [← hdlen]
    exact parseHex_lt _ fun c hc => hhex c (List.mem_of_mem_drop hc)
  have hpow : (16 : ℕ) ^ 28 = 2 ^ 112 := by norm_num
  have hdiv : digestVal h / 2 ^ 112 = parseHex (h.data.take 4) := by
    rw [hsplit, hdlen, hpow, mul_comm, Nat.mul_add_div (by positivity), Nat.div_eq_of_lt
      (by rw [← hpow]; exact hdlt)]
    omega
  have hmod : parseHex (h.data.take 4) % 45816 < 45816 := Nat.mod_lt _ (by omega)
  refine ⟨?_, ?_, ?_, ?_⟩
  · rw [hdiv]
    rfl
  · unfold calculateDefaultPort
    omega
  · unfold calculateDefaultPort
    omega
  · intro hff
    unfold calculateDefaultPort
    rw [hff]
    rfl

/-- Witness for C8: the concrete fingerprint `ff00…0`. -/
theorem calculateDefaultPort_spec_witness :
    calculateDefaultPort "ff000000000000000000000000000000" = 22799 :=
  (calculateDefaultPort_spec "ff000000000000000000000000000000"
      (by decide) (by decide)).2.2.2 (by decide)

/-- C9: `readJsonFile` — and `getTokens` and `checkLockfile` built on
it — is total over the read outcome: a failed directory creation, a
missing file, an unreadable file, malformed JSON, and schema-rejected
content all surface as the absent value, never as an exception, so any
two failed reads are indistinguishable. -/
theorem readJsonFile_total {J T : Type} (schema : J → Except Unit T) :
    (∀ o : ReadOutcome J, readFailed o schema → readJsonFile o schema = none) ∧
    (∀ o₁ o₂ : ReadOutcome J, readFailed o₁ schema → readFailed o₂ schema →
      readJsonFile o₁ schema = readJsonFile o₂ schema) ∧
    (∀ o : ReadOutcome TokensJson, readFailed o oauthTokensSchema → getTokens o = none) ∧
    (∀ o : ReadOutcome LockJson, readFailed o lockfileSchema → checkLockfile o = none) ∧
    (∀ j : LockJson, lockfileSchema j = .ok none →
      checkLockfile (.content (some j)) = none) := by
  have habs : ∀ (J T : Type) (schema : J → Except Unit T) (o : ReadOutcome J),
      readFailed o schema → readJsonFile o schema = none := by
    intro J T schema o hf
    cases o with
    | mkdirError => rfl
    | fileMissing => rfl
    | readError => rfl
    | content p =>
      cases p with
      | none => rfl
      | some j =>
        cases hs : schema j with
        | error e => simp [readJsonFile, hs]
        | ok v => exact absurd hs (hf j v rfl)
  refine ⟨habs J T schema, ?_, ?_, ?_, ?_⟩
  · intro o₁ o₂ h1 h2
    rw [habs J T schema o₁ h1, habs J T schema o₂ h2]
  · intro o hf
    exact habs _ _ oauthTokensSchema o hf
  · intro o hf
    unfold checkLockfile
    rw [habs _ _ lockfileSchema o hf]
  · intro j hj
    simp [checkLockfile, readJsonFile, hj]

/-- Witness for C9: a missing tokens file reads as absent. -/
theorem readJsonFile_total_witness :
    getTokens .fileMissing = none :=
  (readJsonFile_total oauthTokensSchema).2.2.1 .fileMissing
    (fun j v hcontra => by cases hcontra)
